import Mathlib

/-!
Shallow embedding of `src/sleep/sleep.c` (systemd sleep orchestration).

The kernel-facing effects (write_string_file, access, open, fstat,
read_fiemap, proc_cmdline_parse, timerfd, poll) are modelled by an
explicit environment record supplying each call's result; every function
returns its C return value (an `Int`, negative on error) together with
the ordered trace of attempted control-file writes (for `execute_s2h`,
the ordered trace of Sleep Executor invocations).
-/

namespace SystemdSleep

/-- Path of the resume-device control file. -/
def sysResume : String := "/sys/power/resume"

/-- Path of the resume-offset control file. -/
def sysResumeOffset : String := "/sys/power/resume_offset"

/-- Path of the disk-mode control file. -/
def sysDisk : String := "/sys/power/disk"

/-- Path of the power-state control file. -/
def sysState : String := "/sys/power/state"

/-- One attempted control-file write: target path and the written token. -/
structure WriteAttempt where
  path : String
  value : String
deriving DecidableEq

/-- Extent map as returned by `read_fiemap`: the `fm_mapped_extents`
count and the physical offsets of the extents (`fe_physical`). -/
structure Fiemap where
  fm_mapped_extents : Nat
  fm_extents : List Nat
deriving DecidableEq

/-- Hex rendering of a `Nat`, as C's `%lx` renders `st_dev`. -/
def natToHex (n : Nat) : String :=
  String.mk (Nat.toDigits 16 n)

/-- Environment of `write_hibernate_location_info`: the result of each
external call it makes, in program order. `Int` results are C return
values (negative errno on failure); `Option Nat` models a syscall that
sets positive `errno` on failure (`none` = success). -/
structure HibEnv where
  /-- Result of `find_hibernate_location`: error, or `(device, type)`. -/
  findResult : Except Int (String × String)
  /-- Result of `access("/sys/power/resume_offset", W_OK)`: `none` = writable,
  `some e` = failed with `errno = e`. -/
  accessOffset : Option Nat
  /-- Result of `open(device, O_RDONLY|O_CLOEXEC|O_NONBLOCK)`. -/
  openOk : Except Nat Unit
  /-- Result of `fstat(fd, &stb)`: error errno, or `stb.st_dev`. -/
  fstatResult : Except Nat Nat
  /-- Result of `read_fiemap(fd, &fiemap)`. -/
  fiemapResult : Except Int Fiemap
  /-- Result of `proc_cmdline_parse`: error, or the resulting `arg_resume_offset`
  override (`none` when the boot command line has no `resume_offset=`). -/
  cmdlineResult : Except Int (Option String)
  /-- Result of `page_size()`. -/
  pageSize : Nat
  /-- Result of `write_string_file(path, value, WRITE_STRING_FILE_DISABLE_BUFFER)`. -/
  writeRes : String → String → Int

/-- ENOENT. -/
def ENOENT : Nat := 2

/-- EINVAL. -/
def EINVAL : Nat := 22

/-- Model of `write_hibernate_location_info` (sleep.c lines 56-125): locate the
hibernation target, then configure `/sys/power/resume_offset` (file kind
only) and `/sys/power/resume`. Returns the C return value and the trace
of attempted control-file writes. `fm_extents[0]` is rendered with
`headD 0`; it is reached only after the `fm_mapped_extents == 0` check,
and `read_fiemap` always allocates that many entries. -/
def write_hibernate_location_info (env : HibEnv) : Int × List WriteAttempt :=
  match env.findResult with
  | .error r => (r, [])
  | .ok (device, ty) =>
    if ty = "partition" then
      -- swap partition: write the disk to /sys/power/resume and return
      let k := env.writeRes sysResume device
      (k, [⟨sysResume, device⟩])
    else if ty ≠ "file" then
      (-(EINVAL : Int), [])
    else
      match env.accessOffset with
      | some e =>
        -- /sys/power/resume_offset only available in 4.17+
        if e = ENOENT then (0, []) else (-(e : Int), [])
      | none =>
        match env.openOk with
        | .error e => (-(e : Int), [])
        | .ok _ =>
          match env.fstatResult with
          | .error e => (-(e : Int), [])
          | .ok stDev =>
            match env.fiemapResult with
            | .error r => (r, [])
            | .ok fiemap =>
              if fiemap.fm_mapped_extents = 0 then
                (-(EINVAL : Int), [])
              else
                match env.cmdlineResult with
                | .error r => (r, [])
                | .ok override =>
                  let offsetStr :=
                    match override with
                    | some s => s
                    | none => Nat.repr (fiemap.fm_extents.headD 0 / env.pageSize)
                  let k := env.writeRes sysResumeOffset offsetStr
                  if k < 0 then
                    (k, [⟨sysResumeOffset, offsetStr⟩])
                  else
                    let deviceStr := natToHex stDev
                    let k2 := env.writeRes sysResume deviceStr
                    if k2 < 0 then
                      (k2, [⟨sysResumeOffset, offsetStr⟩, ⟨sysResume, deviceStr⟩])
                    else
                      (0, [⟨sysResumeOffset, offsetStr⟩, ⟨sysResume, deviceStr⟩])

/-- Loop body of `write_mode` (sleep.c lines 127-144): `accept m` is the
result of `write_string_file("/sys/power/disk", m, ...)`; `r` is the
accumulator initialised to 0 and updated by `if (r >= 0) r = k;`.
Returns the C return value and the list of attempted tokens in order. -/
def write_modeAux (accept : String → Int) : List String → Int → Int × List String
  | [], r => (r, [])
  | m :: rest, r =>
    let k := accept m
    if 0 ≤ k then
      (0, [m])
    else
      let r1 := if 0 ≤ r then k else r
      let rec0 := write_modeAux accept rest r1
      (rec0.1, m :: rec0.2)

/-- Model of `write_mode` (sleep.c lines 127-144). -/
def write_mode (accept : String → Int) (modes : List String) : Int × List String :=
  write_modeAux accept modes 0

/-- Loop body of `write_state` (sleep.c lines 146-167). `accept i` is the
result of `write_string_stream` for the i-th attempt (each attempt may be
on a freshly reopened handle); after a failed write the handle is closed
and `/sys/power/state` reopened: `reopen i = some e` means that reopen
failed with `errno = e` (the C returns `-errno`), `none` means it
succeeded. Returns the C return value and the attempted tokens. -/
def write_stateAux (accept : Nat → Int) (reopen : Nat → Option Nat) :
    List String → Nat → Int → Int × List String
  | [], _, r => (r, [])
  | s :: rest, i, r =>
    let k := accept i
    if 0 ≤ k then
      (0, [s])
    else
      let r1 := if 0 ≤ r then k else r
      match reopen i with
      | some e => (-(e : Int), [s])
      | none =>
        let rec0 := write_stateAux accept reopen rest (i + 1) r1
        (rec0.1, s :: rec0.2)

/-- Model of `write_state` (sleep.c lines 146-167). -/
def write_state (accept : Nat → Int) (reopen : Nat → Option Nat)
    (states : List String) : Int × List String :=
  write_stateAux accept reopen states 0 0

/-- Environment of `execute`: the open of `/sys/power/state` (`some e` =
`fopen` failed with errno `e`), the environment of
`write_hibernate_location_info`, and the write results feeding
`write_mode` / `write_state`. Hook-directory execution and logging have
no bearing on the result or the control-file writes and are not modelled. -/
structure ExecEnv where
  openState : Option Nat
  hib : HibEnv
  diskWrite : String → Int
  stateAccept : Nat → Int
  stateReopen : Nat → Option Nat

/-- Model of `execute` (sleep.c lines 169-225): open `/sys/power/state` first;
if the mode list is non-empty, configure the hibernation location and
write the disk mode; then write the state. Returns the C return value
and the ordered trace of all attempted control-file writes. -/
def execute (env : ExecEnv) (modes states : List String) : Int × List WriteAttempt :=
  match env.openState with
  | some e => (-(e : Int), [])
  | none =>
    if modes.isEmpty then
      let st := write_state env.stateAccept env.stateReopen states
      (st.1, st.2.map fun v => ⟨sysState, v⟩)
    else
      let hib := write_hibernate_location_info env.hib
      if hib.1 < 0 then
        (hib.1, hib.2)
      else
        let md := write_mode env.diskWrite modes
        let mdTrace := md.2.map fun v => (⟨sysDisk, v⟩ : WriteAttempt)
        if md.1 < 0 then
          (md.1, hib.2 ++ mdTrace)
        else
          let st := write_state env.stateAccept env.stateReopen states
          (st.1, hib.2 ++ mdTrace ++ st.2.map fun v => ⟨sysState, v⟩)

/-- Which call site of `execute_s2h` invoked the Sleep Executor. -/
inductive CallSite where
  | initialSuspend
  | hibernate
  | fallbackSuspend
deriving DecidableEq

/-- One Sleep Executor invocation performed by `execute_s2h`. -/
structure SleepCall where
  site : CallSite
  modes : List String
  states : List String
deriving DecidableEq

/-- The mode/state token lists of a parsed `SleepConfig`, as used by
`execute_s2h`. -/
structure SleepConfig where
  suspend_modes : List String
  suspend_states : List String
  hibernate_modes : List String
  hibernate_states : List String

/-- Environment of `execute_s2h`: timerfd creation and arming (`some e`
= failure with errno `e`), the result of the n-th `execute` invocation
(0 = initial suspend, 1 = hibernate, 2 = fallback suspend), and the
`poll` outcome (`error e` = poll failed with errno `e`, `ok fired` =
whether `revents` has `POLLIN` set). -/
structure S2hEnv where
  timerfdCreate : Option Nat
  timerfdSettime : Option Nat
  exec : Nat → List String → List String → Int
  pollResult : Except Nat Bool

/-- Model of `execute_s2h` (sleep.c lines 227-281): arm the wake timer, suspend,
and on a timer-fired wake attempt hibernation with a suspend fallback.
Returns the C return value and the ordered trace of Sleep Executor
invocations. -/
def execute_s2h (env : S2hEnv) (cfg : SleepConfig) : Int × List SleepCall :=
  match env.timerfdCreate with
  | some e => (-(e : Int), [])
  | none =>
    match env.timerfdSettime with
    | some e => (-(e : Int), [])
    | none =>
      let c0 : SleepCall := ⟨.initialSuspend, cfg.suspend_modes, cfg.suspend_states⟩
      let r0 := env.exec 0 cfg.suspend_modes cfg.suspend_states
      if r0 < 0 then
        (r0, [c0])
      else
        match env.pollResult with
        | .error e => (-(e : Int), [c0])
        | .ok fired =>
          if !fired then
            -- woke up before the alarm time, we are done
            (0, [c0])
          else
            let ch : SleepCall := ⟨.hibernate, cfg.hibernate_modes, cfg.hibernate_states⟩
            let rh := env.exec 1 cfg.hibernate_modes cfg.hibernate_states
            if rh < 0 then
              let c2 : SleepCall := ⟨.fallbackSuspend, cfg.suspend_modes, cfg.suspend_states⟩
              let r2 := env.exec 2 cfg.suspend_modes cfg.suspend_states
              if r2 < 0 then
                (r2, [c0, ch, c2])
              else
                (0, [c0, ch, c2])
            else
              (0, [c0, ch])

/-- Rank of a control-file path in the order the code writes the files:
`/sys/power/resume_offset`, then `/sys/power/resume`, then
`/sys/power/disk`, then `/sys/power/state`. -/
def pathRank (p : String) : Nat :=
  if p = sysResumeOffset then 0
  else if p = sysResume then 1
  else if p = sysDisk then 2
  else 3

/-- Rank of a control-file path in the order claimed by the spec:
`/sys/power/resume`, then `/sys/power/resume_offset`, then
`/sys/power/disk`, then `/sys/power/state`. -/
def specPathRank (p : String) : Nat :=
  if p = sysResume then 0
  else if p = sysResumeOffset then 1
  else if p = sysDisk then 2
  else 3

/-- C7: for a partition-kind hibernation location, `write_hibernate_location_info`
performs exactly one control-file write — the device path to the resume
control file — performs zero writes to the offset control file, and
returns success immediately when that write succeeds. -/
theorem C7_partition_single_resume_write (env : HibEnv) (dev : String)
    (hfind : env.findResult = Except.ok (dev, "partition"))
    (hw : 0 ≤ env.writeRes sysResume dev) :
    (write_hibernate_location_info env).2 = [⟨sysResume, dev⟩] ∧
    0 ≤ (write_hibernate_location_info env).1 ∧
    (write_hibernate_location_info env).2.countP
      (fun w => w.path == sysResumeOffset) = 0 := by
  simp only [write_hibernate_location_info, hfind]
  refine ⟨by simp, by simpa using hw, ?_⟩
  simp [List.countP_cons, sysResume, sysResumeOffset]

theorem C7_witness :
    (0 : Int) ≤ (fun _ _ => (0 : Int)) sysResume "/dev/sda2" ∧
    (write_hibernate_location_info
        ⟨Except.ok ("/dev/sda2", "partition"), none, Except.ok (), Except.ok 0,
         Except.ok ⟨0, []⟩, Except.ok none, 4096, fun _ _ => 0⟩).2 =
      [⟨sysResume, "/dev/sda2"⟩] :=
  ⟨by decide,
   (C7_partition_single_resume_write
      ⟨Except.ok ("/dev/sda2", "partition"), none, Except.ok (), Except.ok 0,
       Except.ok ⟨0, []⟩, Except.ok none, 4096, fun _ _ => 0⟩
      "/dev/sda2" rfl (by decide)).1⟩

/-- C8: for a file-kind hibernation location, if probing the
resume-offset control file fails with ENOENT, `write_hibernate_location_info`
returns success having performed zero control-file writes. -/
theorem C8_enoent_skips_offset (env : HibEnv) (dev : String)
    (hfind : env.findResult = Except.ok (dev, "file"))
    (hacc : env.accessOffset = some ENOENT) :
    write_hibernate_location_info env = (0, []) := by
  simp only [write_hibernate_location_info, hfind, hacc]
  simp [ENOENT]

theorem C8_witness :
    write_hibernate_location_info
        ⟨Except.ok ("/swapfile", "file"), some ENOENT, Except.ok (), Except.ok 0,
         Except.ok ⟨0, []⟩, Except.ok none, 4096, fun _ _ => 0⟩ = (0, []) :=
  C8_enoent_skips_offset
    ⟨Except.ok ("/swapfile", "file"), some ENOENT, Except.ok (), Except.ok 0,
     Except.ok ⟨0, []⟩, Except.ok none, 4096, fun _ _ => 0⟩
    "/swapfile" rfl rfl

/-- C9: an extent map whose `fm_mapped_extents` count is zero makes
`write_hibernate_location_info` fail with -EINVAL regardless of the other
contents of the map, performing no control-file writes. -/
theorem C9_no_extents_einval (env : HibEnv) (dev : String) (d : Nat) (fm : Fiemap)
    (hfind : env.findResult = Except.ok (dev, "file"))
    (hacc : env.accessOffset = none)
    (hopen : env.openOk = Except.ok ())
    (hstat : env.fstatResult = Except.ok d)
    (hfie : env.fiemapResult = Except.ok fm)
    (hme : fm.fm_mapped_extents = 0) :
    write_hibernate_location_info env = (-(EINVAL : Int), []) := by
  simp only [write_hibernate_location_info, hfind, hacc, hopen, hstat, hfie, hme]
  simp

theorem C9_witness :
    write_hibernate_location_info
        ⟨Except.ok ("/swapfile", "file"), none, Except.ok (), Except.ok 7,
         Except.ok ⟨0, [4096, 8192]⟩, Except.ok none, 4096, fun _ _ => 0⟩ =
      (-(EINVAL : Int), []) :=
  C9_no_extents_einval
    ⟨Except.ok ("/swapfile", "file"), none, Except.ok (), Except.ok 7,
     Except.ok ⟨0, [4096, 8192]⟩, Except.ok none, 4096, fun _ _ => 0⟩
    "/swapfile" 7 ⟨0, [4096, 8192]⟩ rfl rfl rfl rfl rfl rfl

/-- C4: for a file-kind target with first extent physical offset `P` and
page size `S`, with no boot-parameter override the value written to the
offset control file is the decimal rendering of `P / S`; with an override
string present, that string is written verbatim and the extent map is
ignored. -/
theorem C4_offset_value (env : HibEnv) (dev : String) (P d me : Nat)
    (exts : List Nat) (ov : Option String)
    (hfind : env.findResult = Except.ok (dev, "file"))
    (hacc : env.accessOffset = none)
    (hopen : env.openOk = Except.ok ())
    (hstat : env.fstatResult = Except.ok d)
    (hfie : env.fiemapResult = Except.ok ⟨me, P :: exts⟩)
    (hme : me ≠ 0)
    (hcmd : env.cmdlineResult = Except.ok ov)
    (hps : 0 < env.pageSize) :
    (write_hibernate_location_info env).2.head? =
      some ⟨sysResumeOffset,
        match ov with
        | none => Nat.repr (P / env.pageSize)
        | some s => s⟩ := by
  have hme2 : ¬ ((Fiemap.mk me (P :: exts)).fm_mapped_extents = 0) := hme
  simp only [write_hibernate_location_info, hfind, hacc, hopen, hstat, hfie, hcmd]
  rw [if_neg (by decide : ¬ ("file" = "partition")),
      if_neg (by decide : ¬ ("file" ≠ "file")), if_neg hme2]
  cases ov <;> split <;> (try split) <;> simp_all

theorem C4_witness :
    ((write_hibernate_location_info
        ⟨Except.ok ("/swapfile", "file"), none, Except.ok (), Except.ok 10,
         Except.ok ⟨1, [8192]⟩, Except.ok none, 4096, fun _ _ => 0⟩).2.head? =
      some ⟨sysResumeOffset, "2"⟩) ∧
    ((write_hibernate_location_info
        ⟨Except.ok ("/swapfile", "file"), none, Except.ok (), Except.ok 10,
         Except.ok ⟨1, [8192]⟩, Except.ok (some "12345"), 4096, fun _ _ => 0⟩).2.head? =
      some ⟨sysResumeOffset, "12345"⟩) :=
  ⟨C4_offset_value
     ⟨Except.ok ("/swapfile", "file"), none, Except.ok (), Except.ok 10,
      Except.ok ⟨1, [8192]⟩, Except.ok none, 4096, fun _ _ => 0⟩
     "/swapfile" 8192 10 1 [] none rfl rfl rfl rfl rfl (by decide) rfl (by decide),
   C4_offset_value
     ⟨Except.ok ("/swapfile", "file"), none, Except.ok (), Except.ok 10,
      Except.ok ⟨1, [8192]⟩, Except.ok (some "12345"), 4096, fun _ _ => 0⟩
     "/swapfile" 8192 10 1 [] (some "12345") rfl rfl rfl rfl rfl (by decide) rfl (by decide)⟩

/-- C10: in `write_state`, if a state-token write is rejected and the
subsequent reopen of the state file fails with errno `e`, the function
returns `-e` immediately with no further token attempted, even if a later
token would have been accepted. -/
theorem C10_reopen_failure_aborts (accept : Nat → Int) (reopen : Nat → Option Nat)
    (s : String) (states : List String) (e : Nat)
    (h0 : accept 0 < 0) (hre : reopen 0 = some e) :
    write_state accept reopen (s :: states) = (-(e : Int), [s]) := by
  simp only [write_state, write_stateAux, hre]
  rw [if_neg (not_le.mpr h0)]

theorem C10_witness :
    write_state (fun i => if i = 0 then (-5 : Int) else 0) (fun _ => some 13)
        ["mem", "standby"] = (-13, ["mem"]) :=
  C10_reopen_failure_aborts (fun i => if i = 0 then (-5 : Int) else 0)
    (fun _ => some 13) "mem" ["standby"] 13 (by decide) rfl

/-- C6: in `execute_s2h`, if the wake timer has not fired when execution
returns from the suspend, zero hibernate-mode Sleep Executor invocations
are performed and the overall result is success. -/
theorem C6_woke_early_no_hibernate (env : S2hEnv) (cfg : SleepConfig)
    (hc : env.timerfdCreate = none) (hs : env.timerfdSettime = none)
    (h0 : 0 ≤ env.exec 0 cfg.suspend_modes cfg.suspend_states)
    (hp : env.pollResult = Except.ok false) :
    (execute_s2h env cfg).1 = 0 ∧
    (execute_s2h env cfg).2 =
      [⟨CallSite.initialSuspend, cfg.suspend_modes, cfg.suspend_states⟩] ∧
    (execute_s2h env cfg).2.countP (fun c => c.site == CallSite.hibernate) = 0 := by
  simp only [execute_s2h, hc, hs, hp]
  rw [if_neg (not_lt.mpr h0)]
  refine ⟨by simp, by simp, ?_⟩
  simp [List.countP_cons]

theorem C6_witness :
    (execute_s2h ⟨none, none, fun _ _ _ => 0, Except.ok false⟩
        ⟨["s2idle"], ["mem"], ["platform"], ["disk"]⟩).1 = 0 ∧
    (execute_s2h ⟨none, none, fun _ _ _ => 0, Except.ok false⟩
        ⟨["s2idle"], ["mem"], ["platform"], ["disk"]⟩).2.countP
      (fun c => c.site == CallSite.hibernate) = 0 := by
  have h := C6_woke_early_no_hibernate
    ⟨none, none, fun _ _ _ => 0, Except.ok false⟩
    ⟨["s2idle"], ["mem"], ["platform"], ["disk"]⟩ rfl rfl (by decide) rfl
  exact ⟨h.1, h.2.2⟩

/-- C5: in `execute_s2h`, if the timer has fired and the hibernate
invocation of the Sleep Executor fails, exactly one additional invocation
with the suspend mode/state lists occurs; if that fallback also fails the
final result is the fallback's failure code, and if it succeeds the final
result is success. -/
theorem C5_hibernate_failure_fallback (env : S2hEnv) (cfg : SleepConfig)
    (hc : env.timerfdCreate = none) (hs : env.timerfdSettime = none)
    (h0 : 0 ≤ env.exec 0 cfg.suspend_modes cfg.suspend_states)
    (hp : env.pollResult = Except.ok true)
    (hh : env.exec 1 cfg.hibernate_modes cfg.hibernate_states < 0) :
    (execute_s2h env cfg).2 =
      [⟨CallSite.initialSuspend, cfg.suspend_modes, cfg.suspend_states⟩,
       ⟨CallSite.hibernate, cfg.hibernate_modes, cfg.hibernate_states⟩,
       ⟨CallSite.fallbackSuspend, cfg.suspend_modes, cfg.suspend_states⟩] ∧
    (env.exec 2 cfg.suspend_modes cfg.suspend_states < 0 →
      (execute_s2h env cfg).1 = env.exec 2 cfg.suspend_modes cfg.suspend_states) ∧
    (0 ≤ env.exec 2 cfg.suspend_modes cfg.suspend_states →
      (execute_s2h env cfg).1 = 0) := by
  simp only [execute_s2h, hc, hs, hp]
  rw [if_neg (not_lt.mpr h0)]
  simp only [Bool.not_true, Bool.false_eq_true, if_false, if_pos hh]
  refine ⟨?_, fun h2 => ?_, fun h2 => ?_⟩
  · split <;> simp
  · rw [if_pos h2]
  · rw [if_neg (not_lt.mpr h2)]

theorem C5_witness :
    (execute_s2h
        ⟨none, none, fun n _ _ => if n = 0 then 0 else -7, Except.ok true⟩
        ⟨["s2idle"], ["mem"], ["platform"], ["disk"]⟩).2 =
      [⟨CallSite.initialSuspend, ["s2idle"], ["mem"]⟩,
       ⟨CallSite.hibernate, ["platform"], ["disk"]⟩,
       ⟨CallSite.fallbackSuspend, ["s2idle"], ["mem"]⟩] ∧
    (execute_s2h
        ⟨none, none, fun n _ _ => if n = 0 then 0 else -7, Except.ok true⟩
        ⟨["s2idle"], ["mem"], ["platform"], ["disk"]⟩).1 = -7 := by
  have h := C5_hibernate_failure_fallback
    ⟨none, none, fun n _ _ => if n = 0 then 0 else -7, Except.ok true⟩
    ⟨["s2idle"], ["mem"], ["platform"], ["disk"]⟩ rfl rfl (by decide) rfl (by decide)
  exact ⟨h.1, h.2.1 (by decide)⟩

/-- C3 counterexample: a run of `execute_s2h` in which the initial
suspend succeeds, the non-blocking timer poll then fails, and the
controller returns an error without ever invoking the hibernate or
fallback paths — so the both-attempts-failed path is not the only
post-suspend path that returns an error. -/
theorem C3_counterexample :
    ((fun (env : S2hEnv) (cfg : SleepConfig) =>
        env.exec 0 cfg.suspend_modes cfg.suspend_states = 0 ∧
        execute_s2h env cfg =
          (-5, [⟨CallSite.initialSuspend, ["s2idle"], ["mem"]⟩]))
      ⟨none, none, fun _ _ _ => 0, Except.error 5⟩
      ⟨["s2idle"], ["mem"], ["platform"], ["disk"]⟩) := by
  decide

/-- C3 amended: after the initial suspend has completed successfully,
`execute_s2h` returns an error exactly when either the non-blocking
timer poll fails (with a positive errno), or the timer fired and both
the hibernate attempt and the fallback suspend attempt fail; every
other post-suspend path returns success. -/
theorem C3_amended_post_suspend_errors (env : S2hEnv) (cfg : SleepConfig)
    (hc : env.timerfdCreate = none) (hs : env.timerfdSettime = none)
    (h0 : 0 ≤ env.exec 0 cfg.suspend_modes cfg.suspend_states) :
    ((execute_s2h env cfg).1 < 0 ↔
      ((∃ e, env.pollResult = Except.error e ∧ 0 < e) ∨
       (env.pollResult = Except.ok true ∧
        env.exec 1 cfg.hibernate_modes cfg.hibernate_states < 0 ∧
        env.exec 2 cfg.suspend_modes cfg.suspend_states < 0))) := by
  simp only [execute_s2h, hc, hs]
  rw [if_neg (not_lt.mpr h0)]
  rcases hp : env.pollResult with e | fired
  · simp only [hp]
    constructor
    · intro h
      exact Or.inl ⟨e, rfl, by exact_mod_cast neg_neg_iff_pos.mp h⟩
    · intro _
      have he : 0 < e := by
        rcases ‹(∃ e2, (Except.error e : Except Nat Bool) = Except.error e2 ∧ 0 < e2) ∨ _›
          with ⟨e2, he2, hpos⟩ | ⟨hcontra, _⟩
        · cases he2; exact hpos
        · cases hcontra
      simpa using he
  · cases fired
    · simp [hp]
    · simp only [hp, Bool.not_true, Bool.false_eq_true, if_false]
      split
      · rename_i hh
        split
        · rename_i h2
          simp [hh, h2]
        · rename_i h2
          simp [hh, h2]
      · rename_i hh
        simp [hh]

theorem C3_amended_witness :
    (execute_s2h ⟨none, none, fun _ _ _ => 0, Except.error 5⟩
        ⟨["s2idle"], ["mem"], ["platform"], ["disk"]⟩).1 < 0 :=
  (C3_amended_post_suspend_errors
      ⟨none, none, fun _ _ _ => 0, Except.error 5⟩
      ⟨["s2idle"], ["mem"], ["platform"], ["disk"]⟩ rfl rfl (by decide)).mpr
    (Or.inl ⟨5, rfl, by decide⟩)

/-- With a negative accumulator, `write_modeAux` never overwrites it:
`if (r >= 0) r = k;` is a no-op once `r < 0`. -/
theorem write_modeAux_neg_acc (accept : String → Int) :
    ∀ (modes : List String) (r : Int), r < 0 → (∀ m ∈ modes, accept m < 0) →
      write_modeAux accept modes r = (r, modes) := by
  intro modes
  induction modes with
  | nil => intro r _ _; rfl
  | cons m rest ih =>
    intro r hr hall
    have hm : accept m < 0 := hall m (by simp)
    simp only [write_modeAux]
    rw [if_neg (not_le.mpr hm), if_neg (not_le.mpr hr),
        ih r hr (fun x hx => hall x (by simp [hx]))]

/-- When every token is rejected, `write_mode` returns the first token's
error and attempts every token. -/
theorem write_mode_all_fail (accept : String → Int) (m : String) (modes : List String)
    (hall : ∀ x ∈ m :: modes, accept x < 0) :
    write_mode accept (m :: modes) = (accept m, m :: modes) := by
  have hm : accept m < 0 := hall m (by simp)
  simp only [write_mode, write_modeAux]
  rw [if_neg (not_le.mpr hm), if_pos le_rfl,
      write_modeAux_neg_acc accept modes (accept m) hm
        (fun x hx => hall x (by simp [hx]))]

/-- The loop `write_modeAux` stops at the first accepted token, for any accumulator. -/
theorem write_modeAux_first_ok (accept : String → Int) :
    ∀ (pre : List String) (tok : String) (post : List String) (r : Int),
      (∀ x ∈ pre, accept x < 0) → 0 ≤ accept tok →
      write_modeAux accept (pre ++ tok :: post) r = (0, pre ++ [tok]) := by
  intro pre
  induction pre with
  | nil =>
    intro tok post r _ htok
    simp only [List.nil_append, write_modeAux]
    rw [if_pos htok]
  | cons x rest ih =>
    intro tok post r hall htok
    have hx : accept x < 0 := hall x (by simp)
    simp only [List.cons_append, write_modeAux, List.append_eq]
    rw [if_neg (not_le.mpr hx),
        ih tok post _ (fun y hy => hall y (by simp [hy])) htok]

/-- With a negative accumulator and all reopens succeeding,
`write_stateAux` never overwrites the accumulator. -/
theorem write_stateAux_neg_acc (accept : Nat → Int) (reopen : Nat → Option Nat)
    (hre : ∀ j, reopen j = none) :
    ∀ (states : List String) (i : Nat) (r : Int), r < 0 →
      (∀ j, j < states.length → accept (i + j) < 0) →
      write_stateAux accept reopen states i r = (r, states) := by
  intro states
  induction states with
  | nil => intro i r _ _; rfl
  | cons s rest ih =>
    intro i r hr hall
    have hs : accept i < 0 := by simpa using hall 0 (by simp)
    simp only [write_stateAux, hre]
    rw [if_neg (not_le.mpr hs), if_neg (not_le.mpr hr),
        ih (i + 1) r hr (fun j hj => by
          have := hall (j + 1) (by simpa using hj)
          simpa [Nat.add_assoc, Nat.add_comm 1 j] using this)]

/-- When every token is rejected and every reopen succeeds, `write_state`
returns the first attempt's error and attempts every token. -/
theorem write_state_all_fail (accept : Nat → Int) (reopen : Nat → Option Nat)
    (hre : ∀ j, reopen j = none) (s : String) (states : List String)
    (hall : ∀ j, j < (s :: states).length → accept j < 0) :
    write_state accept reopen (s :: states) = (accept 0, s :: states) := by
  have h0 : accept 0 < 0 := hall 0 (by simp)
  simp only [write_state, write_stateAux, hre]
  rw [if_neg (not_le.mpr h0), if_pos le_rfl,
      write_stateAux_neg_acc accept reopen hre states 1 (accept 0) h0
        (fun j hj => hall (1 + j) (by simp only [List.length_cons]; omega))]

/-- The loop `write_stateAux` stops at the first accepted attempt when all reopens
succeed, for any accumulator. -/
theorem write_stateAux_first_ok (accept : Nat → Int) (reopen : Nat → Option Nat)
    (hre : ∀ j, reopen j = none) :
    ∀ (pre : List String) (tok : String) (post : List String) (i : Nat) (r : Int),
      (∀ j, j < pre.length → accept (i + j) < 0) → 0 ≤ accept (i + pre.length) →
      write_stateAux accept reopen (pre ++ tok :: post) i r = (0, pre ++ [tok]) := by
  intro pre
  induction pre with
  | nil =>
    intro tok post i r _ htok
    simp only [List.nil_append, write_stateAux]
    rw [if_pos (by simpa using htok)]
  | cons x rest ih =>
    intro tok post i r hall htok
    have hx : accept i < 0 := by simpa using hall 0 (by simp)
    simp only [List.cons_append, write_stateAux, hre, List.append_eq]
    rw [if_neg (not_le.mpr hx),
        ih tok post (i + 1) _ (fun j hj => by
            have := hall (j + 1) (by simpa using hj)
            simpa [Nat.add_assoc, Nat.add_comm 1 j] using this)
          (by
            have : i + (rest.length + 1) = i + 1 + rest.length := by omega
            simpa [List.length_cons, this] using htok)]

/-- C1 counterexample: with a control surface rejecting token "a" with
error -1 and token "b" with error -2, `write_mode` attempts both tokens
yet returns -1 — the error of the first attempted token, not the error
of the last attempted token, refuting the claimed last-error policy. -/
theorem C1_counterexample :
    (write_mode (fun x => if x = "a" then (-1 : Int) else -2) ["a", "b"]).2 =
      ["a", "b"] ∧
    (write_mode (fun x => if x = "a" then (-1 : Int) else -2) ["a", "b"]).1 = -1 ∧
    (fun x => if x = "a" then (-1 : Int) else -2) "b" = -2 ∧
    (write_mode (fun x => if x = "a" then (-1 : Int) else -2) ["a", "b"]).1 ≠
      (fun x => if x = "a" then (-1 : Int) else -2) "b" := by
  decide

/-- C1 amended: for every non-empty token list in which no token is
accepted, `write_mode` (and likewise `write_state`, provided each reopen
of the state file succeeds) attempts every token and returns the error
produced by the first attempted token, not a later one; and for every
list containing an acceptable token, it returns success after the first
accepted token without attempting later tokens. -/
theorem C1_amended_first_error_first_success (acceptM : String → Int)
    (acceptS : Nat → Int) (reopen : Nat → Option Nat) (m : String)
    (modes : List String) (s : String) (states : List String)
    (hre : ∀ j, reopen j = none) :
    ((∀ x ∈ m :: modes, acceptM x < 0) →
        write_mode acceptM (m :: modes) = (acceptM m, m :: modes)) ∧
    (∀ pre tok post, m :: modes = pre ++ tok :: post →
        (∀ x ∈ pre, acceptM x < 0) → 0 ≤ acceptM tok →
        write_mode acceptM (m :: modes) = (0, pre ++ [tok])) ∧
    ((∀ j, j < (s :: states).length → acceptS j < 0) →
        write_state acceptS reopen (s :: states) = (acceptS 0, s :: states)) ∧
    (∀ pre tok post, s :: states = pre ++ tok :: post →
        (∀ j, j < pre.length → acceptS j < 0) → 0 ≤ acceptS pre.length →
        write_state acceptS reopen (s :: states) = (0, pre ++ [tok])) := by
  refine ⟨write_mode_all_fail acceptM m modes, ?_,
          write_state_all_fail acceptS reopen hre s states, ?_⟩
  · intro pre tok post heq hall htok
    rw [write_mode, heq, write_modeAux_first_ok acceptM pre tok post 0 hall htok]
  · intro pre tok post heq hall htok
    rw [write_state, heq,
        write_stateAux_first_ok acceptS reopen hre pre tok post 0 0
          (fun j hj => by simpa using hall j hj) (by simpa using htok)]

theorem C1_amended_witness :
    write_mode (fun x => if x = "a" then (-1 : Int) else -2) ["a", "b"] =
      (-1, ["a", "b"]) ∧
    write_mode (fun x => if x = "b" then (0 : Int) else -5) ["a", "b", "c"] =
      (0, ["a", "b"]) ∧
    write_state (fun _ => (-7 : Int)) (fun _ => none) ["mem", "standby"] =
      (-7, ["mem", "standby"]) ∧
    write_state (fun i => if i = 1 then (0 : Int) else -3) (fun _ => none)
      ["mem", "standby", "freeze"] = (0, ["mem", "standby"]) := by
  refine ⟨?_, ?_, ?_, ?_⟩
  · have h := (C1_amended_first_error_first_success
      (fun x => if x = "a" then (-1 : Int) else -2) (fun _ => 0) (fun _ => none)
      "a" ["b"] "mem" [] (fun _ => rfl)).1 (by decide)
    rw [h]; decide
  · have h := (C1_amended_first_error_first_success
      (fun x => if x = "b" then (0 : Int) else -5) (fun _ => 0) (fun _ => none)
      "a" ["b", "c"] "mem" [] (fun _ => rfl)).2.1 ["a"] "b" ["c"] rfl
      (by decide) (by decide)
    rw [h]; decide
  · have h := (C1_amended_first_error_first_success
      (fun _ => 0) (fun _ => (-7 : Int)) (fun _ => none)
      "a" [] "mem" ["standby"] (fun _ => rfl)).2.2.1 (by decide)
    rw [h]
  · have h := (C1_amended_first_error_first_success
      (fun _ => 0) (fun i => if i = 1 then (0 : Int) else -3) (fun _ => none)
      "a" [] "mem" ["standby", "freeze"] (fun _ => rfl)).2.2.2
      ["mem"] "standby" ["freeze"] rfl (by decide) (by decide)
    rw [h]; decide

/-- Concatenating two rank-sorted lists separated by a bound `c` yields a
rank-sorted list. -/
theorem pairwise_le_append_of_bound {l1 l2 : List Nat} (c : Nat)
    (h1 : l1.Pairwise (· ≤ ·)) (hb1 : ∀ a ∈ l1, a ≤ c)
    (h2 : l2.Pairwise (· ≤ ·)) (hb2 : ∀ b ∈ l2, c ≤ b) :
    (l1 ++ l2).Pairwise (· ≤ ·) := by
  rw [List.pairwise_append]
  exact ⟨h1, h2, fun a ha b hb => le_trans (hb1 a ha) (hb2 b hb)⟩

/-- Membership in a constant list. -/
theorem eq_of_mem_map_const {α : Type} {c : Nat} {l : List α} {b : Nat}
    (hb : b ∈ l.map fun _ => c) : b = c := by
  rcases List.mem_map.mp hb with ⟨y, _, h⟩
  exact h.symm

/-- A constant list is rank-sorted. -/
theorem pairwise_le_map_const {α : Type} (c : Nat) (l : List α) :
    (l.map fun _ => c).Pairwise (fun a b => a ≤ b) := by
  induction l with
  | nil => exact List.Pairwise.nil
  | cons x rest ih =>
    refine List.Pairwise.cons ?_ ih
    intro b hb
    have hbc : b = c := eq_of_mem_map_const hb
    subst hbc
    exact le_rfl

/-- Evaluation of `pathRank` at the offset control path. -/
theorem pathRank_sysResumeOffset : pathRank sysResumeOffset = 0 := by decide

/-- Evaluation of `pathRank` at the resume control path. -/
theorem pathRank_sysResume : pathRank sysResume = 1 := by decide

/-- The path ranks of a trace of writes all aimed at one path `p`. -/
theorem rank_map_tagged (p : String) (l : List String) :
    ((l.map fun v => (⟨p, v⟩ : WriteAttempt)).map fun w => pathRank w.path) =
      l.map fun _ => pathRank p := by
  induction l with
  | nil => rfl
  | cons x rest ih => simp [ih]

/-- The rank list of the writes of `write_hibernate_location_info` is one
of `[]`, `[1]` (resume only), `[0]` (offset only, second write not
reached) or `[0, 1]` (offset then resume). -/
theorem whl_rank_shape (env : HibEnv) :
    ((write_hibernate_location_info env).2.map fun w => pathRank w.path) = [] ∨
    ((write_hibernate_location_info env).2.map fun w => pathRank w.path) = [1] ∨
    ((write_hibernate_location_info env).2.map fun w => pathRank w.path) = [0] ∨
    ((write_hibernate_location_info env).2.map fun w => pathRank w.path) = [0, 1] := by
  rcases hf : env.findResult with r | ⟨dev, ty⟩ <;>
    rcases ha : env.accessOffset with _ | e <;>
    rcases ho : env.openOk with e1 | u <;>
    rcases hst : env.fstatResult with e2 | d <;>
    rcases hfm : env.fiemapResult with e3 | fm <;>
    rcases hcm : env.cmdlineResult with e4 | ov <;>
    (try rcases ov with _ | s) <;>
    simp only [write_hibernate_location_info, hf, ha, ho, hst, hfm, hcm] <;>
    (try split_ifs) <;>
    simp [pathRank_sysResumeOffset, pathRank_sysResume]

/-- C2 counterexample: a complete hibernation run in which `execute`
writes, in order, `/sys/power/resume_offset`, `/sys/power/resume`,
`/sys/power/disk`, `/sys/power/state` — the offset write precedes the
resume write, so the trace violates the spec's claimed
resume-before-resume_offset order. -/
theorem C2_counterexample :
    (((execute
        ⟨none,
         ⟨Except.ok ("/swapfile", "file"), none, Except.ok (), Except.ok 10,
          Except.ok ⟨1, [8192]⟩, Except.ok none, 4096, fun _ _ => 0⟩,
         fun _ => 0, fun _ => 0, fun _ => none⟩
        ["platform"] ["mem"]).2.map fun w => w.path) =
      [sysResumeOffset, sysResume, sysDisk, sysState]) ∧
    ¬ (((execute
        ⟨none,
         ⟨Except.ok ("/swapfile", "file"), none, Except.ok (), Except.ok 10,
          Except.ok ⟨1, [8192]⟩, Except.ok none, 4096, fun _ _ => 0⟩,
         fun _ => 0, fun _ => 0, fun _ => none⟩
        ["platform"] ["mem"]).2.map fun w => specPathRank w.path).Pairwise
      (· ≤ ·)) := by
  decide

/-- C2 amended: in every invocation of `execute` the kernel control
files are written in the fixed order resume_offset before resume before
disk-mode before power-state; no write to a later file in this order
ever precedes a write to an earlier one (the path ranks along the trace
are non-decreasing). -/
theorem C2_amended_write_order (env : ExecEnv) (modes states : List String) :
    ((execute env modes states).2.map fun w => pathRank w.path).Pairwise
      (· ≤ ·) := by
  have hR1 : ((write_hibernate_location_info env.hib).2.map
      fun w => pathRank w.path).Pairwise (· ≤ ·) := by
    rcases whl_rank_shape env.hib with h | h | h | h <;> rw [h] <;> decide
  have hR2 : ∀ a ∈ ((write_hibernate_location_info env.hib).2.map
      fun w => pathRank w.path), a ≤ 2 := by
    rcases whl_rank_shape env.hib with h | h | h | h <;> rw [h] <;> decide
  rcases ho : env.openState with _ | e
  · simp only [execute, ho]
    cases modes with
    | nil =>
      simp only [List.isEmpty_nil, if_true]
      rw [rank_map_tagged]
      exact pairwise_le_map_const _ _
    | cons m ms =>
      simp only [List.isEmpty_cons, Bool.false_eq_true, if_false]
      split_ifs with h1 h2
      · exact hR1
      · rw [List.map_append]
        refine pairwise_le_append_of_bound 2 hR1 hR2 ?_ ?_
        · rw [rank_map_tagged]
          exact pairwise_le_map_const _ _
        · intro b hb
          rw [rank_map_tagged] at hb
          have hb2 := eq_of_mem_map_const hb
          simp only [hb2]
          decide
      · rw [List.append_assoc, List.map_append]
        refine pairwise_le_append_of_bound 2 hR1 hR2 ?_ ?_
        · rw [List.map_append]
          refine pairwise_le_append_of_bound 3 ?_ ?_ ?_ ?_
          · rw [rank_map_tagged]
            exact pairwise_le_map_const _ _
          · intro a hha
            rw [rank_map_tagged] at hha
            have := eq_of_mem_map_const hha
            simp only [this]
            decide
          · rw [rank_map_tagged]
            exact pairwise_le_map_const _ _
          · intro b hb
            rw [rank_map_tagged] at hb
            have := eq_of_mem_map_const hb
            simp only [this]
            decide
        · intro b hb
          rw [List.map_append, List.mem_append, rank_map_tagged,
              rank_map_tagged] at hb
          rcases hb with hb | hb
          · have h3 := eq_of_mem_map_const hb
            simp only [h3]
            decide
          · have h3 := eq_of_mem_map_const hb
            simp only [h3]
            decide
  · simp [execute, ho]

end SystemdSleep
